import Mathlib

/-!
Verification of the Power of Attorney tracker (`src/main.py`).

The development shallowly embeds the parts of the program the claims are
about:

* the calendar dates stored in the `DATE` columns, with the day-number
  arithmetic performed by PostgreSQL (`end_date - CURRENT_DATE`) and by
  Python (`(end_date - today).days`);
* the `YYYY-MM-DD` parsing done by `datetime.strptime(end_date, "%Y-%m-%d")`
  and the formatting done by `date.isoformat()`;
* the expiry scan job `check_expiring_powers` with its dispatcher and
  mark-notified store writes (external effects are passed in as oracles);
* the HTTP handlers `create_power`, `get_powers`, `delete_power`,
  `manual_check_expiring` and the dispatcher
  `send_telegram_notification`.

Databases, HTTP and Telegram are external collaborators: their outcomes
enter as explicit parameters (`Except` values and boolean oracles), and
the handlers are total functions from those outcomes to responses.
-/

namespace Dover

/-- A calendar date, as held in the `start_date` / `end_date` `DATE`
columns and in Python `datetime.date` values: year, month, day. -/
structure Date where
  year : Nat
  month : Nat
  day : Nat
deriving DecidableEq

/-- Gregorian leap-year rule, as used by both PostgreSQL and Python
`datetime`. -/
def isLeap (y : Nat) : Bool :=
  y % 4 == 0 && (y % 100 != 0 || y % 400 == 0)

/-- Number of days in month `m` of a year whose leap flag is `leap`. -/
def daysInMonthB (leap : Bool) (m : Nat) : Nat :=
  if m = 2 then (if leap then 29 else 28)
  else if m = 4 ∨ m = 6 ∨ m = 9 ∨ m = 11 then 30
  else 31

/-- Number of days in month `m` of year `y`. -/
def daysInMonth (y m : Nat) : Nat := daysInMonthB (isLeap y) m

/-- Validity of a calendar date, exactly the check `datetime.date`
performs on construction (years 1..9999, months 1..12, days within the
month). -/
def validDate (dt : Date) : Bool :=
  1 ≤ dt.year && dt.year ≤ 9999 && 1 ≤ dt.month && dt.month ≤ 12 &&
    1 ≤ dt.day && dt.day ≤ daysInMonth dt.year dt.month

/-- Days contributed by the months of the year strictly before month `m`. -/
def daysBeforeMonthB (leap : Bool) (m : Nat) : Nat :=
  ((List.range (m - 1)).map (fun i => daysInMonthB leap (i + 1))).sum

/-- Number of leap years strictly before year `y` (years `1, ..., y-1`). -/
def leapsBefore (y : Nat) : Nat :=
  (y - 1) / 4 - (y - 1) / 100 + (y - 1) / 400

/-- Day number of a date: days elapsed since `0001-01-01`.  Both
PostgreSQL `DATE` subtraction and Python `date` subtraction return the
difference of such day numbers, so this function is the semantic anchor
for all date arithmetic in the program. -/
def toDaysNat (dt : Date) : Nat :=
  365 * (dt.year - 1) + leapsBefore dt.year
    + daysBeforeMonthB (isLeap dt.year) dt.month + (dt.day - 1)

/-- Chronological (calendar, lexicographic) strict order on dates. -/
def dateLtCal (a b : Date) : Prop :=
  a.year < b.year ∨
    (a.year = b.year ∧
      (a.month < b.month ∨ (a.month = b.month ∧ a.day < b.day)))

instance (a b : Date) : Decidable (dateLtCal a b) := by
  unfold dateLtCal; infer_instance

/-- Boolean date comparison as the database evaluates `end_date >=
CURRENT_DATE`: PostgreSQL stores a `DATE` as a day count and compares
numerically. -/
def dateLe (a b : Date) : Bool :=
  decide (toDaysNat a ≤ toDaysNat b)

/-- One month of days-before-month: stepping the month adds the length
of the crossed month. -/
theorem daysBeforeMonthB_step : ∀ (L : Bool), ∀ m < 13, 1 ≤ m →
    daysBeforeMonthB L (m + 1) = daysBeforeMonthB L m + daysInMonthB L m := by
  decide

/-- Within a fixed year, the offset of a valid day/month is strictly
below the year length `365 + leap`. -/
theorem daysBeforeMonthB_lt_year : ∀ (L : Bool), ∀ m < 13, ∀ d < 32,
    1 ≤ m → 1 ≤ d → d ≤ daysInMonthB L m →
    daysBeforeMonthB L m + (d - 1) < 365 + (if L then 1 else 0) := by
  decide

/-- Days-before-month is monotone in the month. -/
theorem daysBeforeMonthB_mono : ∀ (L : Bool), ∀ m₁ < 13, ∀ m₂ < 13,
    m₁ ≤ m₂ → daysBeforeMonthB L m₁ ≤ daysBeforeMonthB L m₂ := by
  decide

/-- Strict growth of the in-year offset along the calendar month order. -/
theorem daysBeforeMonthB_month_lt (L : Bool) {m₁ m₂ d₁ : Nat}
    (h1 : 1 ≤ m₁) (h12 : m₁ < m₂) (h2 : m₂ ≤ 12) (hd : 1 ≤ d₁)
    (hdm : d₁ ≤ daysInMonthB L m₁) :
    daysBeforeMonthB L m₁ + (d₁ - 1) < daysBeforeMonthB L m₂ := by
  have hstep := daysBeforeMonthB_step L m₁ (by omega) h1
  have hmono := daysBeforeMonthB_mono L (m₁ + 1) (by omega) m₂ (by omega)
    (by omega)
  omega

/-- Every month has at most 31 days. -/
theorem daysInMonthB_le (L : Bool) (m : Nat) : daysInMonthB L m ≤ 31 := by
  unfold daysInMonthB
  split
  · split <;> omega
  · split <;> omega

/-- Stepping a year adds one leap day below exactly when the crossed
year is leap. -/
theorem leapsBefore_succ (y : Nat) (hy : 1 ≤ y) :
    leapsBefore (y + 1) = leapsBefore y + (if isLeap y then 1 else 0) := by
  obtain ⟨n, rfl⟩ : ∃ n, y = n + 1 := ⟨y - 1, by omega⟩
  unfold leapsBefore isLeap
  simp only [Nat.add_sub_cancel, Bool.and_eq_true, Bool.or_eq_true,
    beq_iff_eq, bne_iff_ne, ne_eq, decide_eq_true_eq]
  by_cases c4 : (n + 1) % 4 = 0 <;> by_cases c100 : (n + 1) % 100 = 0 <;>
    by_cases c400 : (n + 1) % 400 = 0 <;>
      simp only [c4, c100, c400, not_true, not_false_iff, true_and,
        false_and, true_or, or_true, false_or, or_false, and_true,
        and_false, not_false_eq_true, not_true_eq_false, if_true, if_false,
        ite_true, ite_false, eq_self_iff_true] <;> omega

/-- `leapsBefore` never decreases when the year advances. -/
theorem leapsBefore_mono : Monotone leapsBefore := by
  apply monotone_nat_of_le_succ
  intro y
  cases y with
  | zero => simp [leapsBefore]
  | succ n =>
    rw [leapsBefore_succ (n + 1) (by omega)]
    omega

/-- Upper bound: every day of year `y` has day number below the first
day of year `y + 1`. -/
theorem toDaysNat_lt_next_year (dt : Date) (h : validDate dt = true) :
    toDaysNat dt < 365 * dt.year + leapsBefore (dt.year + 1) := by
  have hv : 1 ≤ dt.year ∧ dt.year ≤ 9999 ∧ 1 ≤ dt.month ∧ dt.month ≤ 12 ∧
      1 ≤ dt.day ∧ dt.day ≤ daysInMonth dt.year dt.month := by
    unfold validDate at h
    simp only [Bool.and_eq_true, decide_eq_true_eq] at h
    omega
  obtain ⟨hy1, hy2, hm1, hm2, hd1, hd2⟩ := hv
  have hdle : dt.day < 32 := by
    have := daysInMonthB_le (isLeap dt.year) dt.month
    unfold daysInMonth at hd2
    omega
  have hoff := daysBeforeMonthB_lt_year (isLeap dt.year) dt.month
    (by omega) dt.day hdle hm1 hd1 hd2
  have hls := leapsBefore_succ dt.year hy1
  unfold toDaysNat
  cases hL : isLeap dt.year <;> simp only [hL, if_true, if_false] at hoff hls ⊢ <;>
    omega

/-- Strict monotonicity: chronologically earlier valid dates have
strictly smaller day numbers. -/
theorem toDaysNat_strictMono {a b : Date} (ha : validDate a = true)
    (hb : validDate b = true) (hab : dateLtCal a b) :
    toDaysNat a < toDaysNat b := by
  have hva : 1 ≤ a.year ∧ a.year ≤ 9999 ∧ 1 ≤ a.month ∧ a.month ≤ 12 ∧
      1 ≤ a.day ∧ a.day ≤ daysInMonth a.year a.month := by
    unfold validDate at ha
    simp only [Bool.and_eq_true, decide_eq_true_eq] at ha
    omega
  have hvb : 1 ≤ b.year ∧ b.year ≤ 9999 ∧ 1 ≤ b.month ∧ b.month ≤ 12 ∧
      1 ≤ b.day ∧ b.day ≤ daysInMonth b.year b.month := by
    unfold validDate at hb
    simp only [Bool.and_eq_true, decide_eq_true_eq] at hb
    omega
  rcases hab with hy | ⟨hy, hm | ⟨hm, hd⟩⟩
  · -- strictly earlier year
    have h1 := toDaysNat_lt_next_year a ha
    have h2 : 365 * a.year + leapsBefore (a.year + 1) ≤
        365 * (b.year - 1) + leapsBefore b.year := by
      have : leapsBefore (a.year + 1) ≤ leapsBefore b.year :=
        leapsBefore_mono (by omega)
      have : 365 * a.year ≤ 365 * (b.year - 1) := by
        have : a.year ≤ b.year - 1 := by omega
        exact Nat.mul_le_mul_left _ this
      omega
    have h3 : 365 * (b.year - 1) + leapsBefore b.year ≤ toDaysNat b := by
      unfold toDaysNat; omega
    omega
  · -- same year, strictly earlier month
    have hdm : a.day ≤ daysInMonthB (isLeap a.year) a.month := by
      unfold daysInMonth at hva
      omega
    have hoff := daysBeforeMonthB_month_lt (isLeap a.year)
      (show 1 ≤ a.month by omega) hm (by omega) (by omega) hdm
    unfold toDaysNat
    simp only [hy] at hoff ⊢
    omega
  · -- same year and month, strictly earlier day
    unfold toDaysNat
    simp only [hy, hm]
    omega

/-- Chronological totality of the calendar order. -/
theorem dateLtCal_trichotomy (a b : Date) :
    dateLtCal a b ∨ a = b ∨ dateLtCal b a := by
  unfold dateLtCal
  rcases a with ⟨ay, am, ad⟩
  rcases b with ⟨by_, bm, bd⟩
  simp only [Date.mk.injEq]
  omega

/-- Order isomorphism between the calendar order and day numbers, on
valid dates. -/
theorem dateLtCal_iff_toDaysNat {a b : Date} (ha : validDate a = true)
    (hb : validDate b = true) :
    dateLtCal a b ↔ toDaysNat a < toDaysNat b := by
  constructor
  · exact toDaysNat_strictMono ha hb
  · intro h
    rcases dateLtCal_trichotomy a b with hlt | heq | hgt
    · exact hlt
    · subst heq; omega
    · have := toDaysNat_strictMono hb ha hgt
      omega

/-- The boolean comparison used for `end_date >= CURRENT_DATE` agrees
with the calendar order on valid dates. -/
theorem dateLe_iff_not_lt {a b : Date} (ha : validDate a = true)
    (hb : validDate b = true) :
    dateLe a b = true ↔ ¬ dateLtCal b a := by
  unfold dateLe
  rw [decide_eq_true_eq, dateLtCal_iff_toDaysNat hb ha]
  omega

/-! ### Date strings

`create_power` runs `datetime.strptime(end_date, "%Y-%m-%d").date()` and
`get_powers` emits `end_date.isoformat()`.  CPython compiles the format
into the regular expression `\d\d\d\d-(1[0-2]|0[1-9]|[1-9])-`
`(3[01]|[12]\d|0[1-9]|[1-9])`, requires the whole input to be consumed,
and then validates the calendar through the `datetime` constructor.  The
parser below follows that regular expression alternative by alternative.
-/

/-- Numeric value of a decimal digit character. -/
def digitVal (c : Char) : Nat := c.toNat - 48

/-- Two-digit month alternatives of the format regex: `1[0-2]` and
`0[1-9]`. -/
def isMonth2 (c1 c2 : Char) : Bool :=
  (c1 == '1' && c2.isDigit && decide (digitVal c2 ≤ 2)) ||
    (c1 == '0' && c2.isDigit && decide (1 ≤ digitVal c2))

/-- One-digit alternative `[1-9]`, shared by the month and day parts. -/
def isDigit19 (c : Char) : Bool :=
  c.isDigit && decide (1 ≤ digitVal c)

/-- Two-digit day alternatives of the format regex: `3[01]`, `[12]`
followed by a digit, and `0[1-9]`. -/
def isDay2 (c1 c2 : Char) : Bool :=
  (c1 == '3' && (c2 == '0' || c2 == '1')) ||
    ((c1 == '1' || c1 == '2') && c2.isDigit) ||
    (c1 == '0' && c2.isDigit && decide (1 ≤ digitVal c2))

/-- Parse the month part followed by the literal dash, returning the
month value and the unconsumed characters. -/
def parseMonthDash : List Char → Option (Nat × List Char)
  | c1 :: c2 :: rest =>
    if isMonth2 c1 c2 then
      match rest with
      | '-' :: r => some (10 * digitVal c1 + digitVal c2, r)
      | _ => none
    else if isDigit19 c1 && c2 == '-' then
      some (digitVal c1, rest)
    else none
  | _ => none

/-- Parse the day part, which must consume the rest of the input
(`strptime` rejects unconverted trailing data). -/
def parseDayEnd : List Char → Option Nat
  | [c1] => if isDigit19 c1 then some (digitVal c1) else none
  | [c1, c2] =>
    if isDay2 c1 c2 then some (10 * digitVal c1 + digitVal c2) else none
  | _ => none

/-- `datetime.strptime(s, "%Y-%m-%d").date()` on the character list of
`s`: four year digits, a dash, the month, a dash, the day, and the
calendar validation done by the `datetime` constructor. -/
def parseDateList : List Char → Option Date
  | c1 :: c2 :: c3 :: c4 :: '-' :: rest =>
    if c1.isDigit && c2.isDigit && c3.isDigit && c4.isDigit then
      match parseMonthDash rest with
      | some (m, r2) =>
        match parseDayEnd r2 with
        | some d =>
          let y := 1000 * digitVal c1 + 100 * digitVal c2
            + 10 * digitVal c3 + digitVal c4
          if validDate ⟨y, m, d⟩ then some ⟨y, m, d⟩ else none
        | none => none
      | none => none
    else none
  | _ => none

/-- `datetime.strptime(s, "%Y-%m-%d").date()`, `none` standing for the
raised `ValueError`. -/
def parseDate (s : String) : Option Date := parseDateList s.data

/-- Character list of `date.isoformat()`: zero-padded
`YYYY-MM-DD`. -/
def isoChars (dt : Date) : List Char :=
  [Nat.digitChar (dt.year / 1000 % 10), Nat.digitChar (dt.year / 100 % 10),
   Nat.digitChar (dt.year / 10 % 10), Nat.digitChar (dt.year % 10), '-',
   Nat.digitChar (dt.month / 10 % 10), Nat.digitChar (dt.month % 10), '-',
   Nat.digitChar (dt.day / 10 % 10), Nat.digitChar (dt.day % 10)]

/-- `date.isoformat()`. -/
def toIso (dt : Date) : String := String.mk (isoChars dt)

theorem digitChar_isDigit : ∀ k < 10, (Nat.digitChar k).isDigit = true := by
  decide

theorem digitVal_digitChar : ∀ k < 10, digitVal (Nat.digitChar k) = k := by
  decide

/-- The month-and-dash parser inverts zero-padded formatting. -/
theorem parseMonthDash_iso (m : Nat) (h1 : 1 ≤ m) (h2 : m ≤ 12)
    (tail : List Char) :
    parseMonthDash (Nat.digitChar (m / 10 % 10) :: Nat.digitChar (m % 10)
      :: '-' :: tail) = some (m, tail) := by
  interval_cases m <;> rfl

/-- The day parser inverts zero-padded formatting. -/
theorem parseDayEnd_iso (d : Nat) (h1 : 1 ≤ d) (h2 : d ≤ 31) :
    parseDayEnd [Nat.digitChar (d / 10 % 10), Nat.digitChar (d % 10)]
      = some d := by
  interval_cases d <;> rfl

/-- Parsing inverts ISO formatting on every valid date: the exact
round-trip behind claims C7 and C9. -/
theorem parseDate_toIso (dt : Date) (h : validDate dt = true) :
    parseDate (toIso dt) = some dt := by
  obtain ⟨y, m, d⟩ := dt
  have hv : 1 ≤ y ∧ y ≤ 9999 ∧ 1 ≤ m ∧ m ≤ 12 ∧ 1 ≤ d ∧
      d ≤ daysInMonth y m := by
    unfold validDate at h
    simp only [Bool.and_eq_true, decide_eq_true_eq] at h
    omega
  obtain ⟨hy1, hy2, hm1, hm2, hd1, hd2⟩ := hv
  have hd31 : d ≤ 31 := by
    have := daysInMonthB_le (isLeap y) m
    unfold daysInMonth at hd2
    omega
  show parseDateList (isoChars ⟨y, m, d⟩) = some ⟨y, m, d⟩
  unfold isoChars
  simp only [parseDateList,
    digitChar_isDigit (y / 1000 % 10) (Nat.mod_lt _ (by omega)),
    digitChar_isDigit (y / 100 % 10) (Nat.mod_lt _ (by omega)),
    digitChar_isDigit (y / 10 % 10) (Nat.mod_lt _ (by omega)),
    digitChar_isDigit (y % 10) (Nat.mod_lt _ (by omega)),
    Bool.and_self, if_true, ite_true,
    parseMonthDash_iso m hm1 hm2, parseDayEnd_iso d hd1 hd31,
    digitVal_digitChar (y / 1000 % 10) (Nat.mod_lt _ (by omega)),
    digitVal_digitChar (y / 100 % 10) (Nat.mod_lt _ (by omega)),
    digitVal_digitChar (y / 10 % 10) (Nat.mod_lt _ (by omega)),
    digitVal_digitChar (y % 10) (Nat.mod_lt _ (by omega))]
  have hy : 1000 * (y / 1000 % 10) + 100 * (y / 100 % 10)
      + 10 * (y / 10 % 10) + y % 10 = y := by omega
  simp only [hy, h, ite_true, if_true]

example : parseDate "2025-06-15" = some ⟨2025, 6, 15⟩ := by rfl
example : parseDate "2025-02-29" = none := by rfl
example : parseDate "2024-02-29" = some ⟨2024, 2, 29⟩ := by rfl
example : parseDate "2025-13-01" = none := by rfl
example : parseDate "2025-6-15" = some ⟨2025, 6, 15⟩ := by rfl
example : toIso ⟨2025, 6, 15⟩ = "2025-06-15" := by rfl

/-! ### The record store

A row of the `powers_of_attorney` table, with the columns the program
reads (`created_at` is never used by any handler logic and is
omitted).  The table itself is the list of rows in insertion order.
-/

structure Row where
  id : Nat
  full_name : String
  poa_type : String
  start_date : Date
  end_date : Date
  telegram_chat_id : String
  notification_sent : Bool
deriving DecidableEq

/-- Row comparison used by `ORDER BY end_date ASC`. -/
def endLe (a b : Row) : Prop := dateLe a.end_date b.end_date = true

instance : DecidableRel endLe := fun _ _ => instDecidableEqBool _ _

instance : IsTotal Row endLe where
  total a b := by
    unfold endLe dateLe
    simp only [decide_eq_true_eq]
    omega

instance : IsTrans Row endLe where
  trans a b c := by
    unfold endLe dateLe
    simp only [decide_eq_true_eq]
    omega

/-- One sorting of the table by ascending `end_date`; the reference
result of `ORDER BY end_date ASC`. -/
def sortByEnd (l : List Row) : List Row := List.insertionSort endLe l

/-- What `ORDER BY end_date ASC` promises about a result sequence: a
permutation of the table, sorted ascending by `end_date`.  SQL sorting
constrains nothing further (there is no secondary sort key). -/
def orderByEndSpec (table result : List Row) : Prop :=
  table.Perm result ∧ result.Sorted endLe

/-- The rows fetched by the scan query: `WHERE end_date >= CURRENT_DATE
ORDER BY end_date ASC`. -/
def activeRows (table : List Row) (today : Date) : List Row :=
  sortByEnd (table.filter (fun r => dateLe today r.end_date))

/-! ### Notification dispatcher and the expiry scan -/

/-- `NOTIFICATION_DAYS = [7, 3, 1]`. -/
def NOTIFICATION_DAYS : List Int := [7, 3, 1]

/-- `days_left = (end_date - today).days` in `check_expiring_powers`. -/
def daysLeft (today : Date) (r : Row) : Int :=
  (toDaysNat r.end_date : Int) - (toDaysNat today : Int)

/-- The threshold policy: `days_left in NOTIFICATION_DAYS`. -/
def shouldNotify (today : Date) (r : Row) : Bool :=
  decide (daysLeft today r ∈ NOTIFICATION_DAYS)

/-- `send_telegram_notification`: given whether the bot token is
configured and the outcome of the single outbound HTTP POST (`Except`
error standing for a raised network exception, `ok s` for a response
with status `s`), returns the boolean result together with how many
outbound requests were issued.  The function is total: every failure is
caught and turned into `false`. -/
def sendTelegramNotification (tokenConfigured : Bool)
    (httpResult : Except String Nat) : Bool × Nat :=
  if !tokenConfigured then (false, 0)
  else
    match httpResult with
    | .error _ => (false, 1)
    | .ok status => (status == 200, 1)

/-- State threaded through one scan tick: the table as mutated by the
`UPDATE ... SET notification_sent = TRUE` writes, the ids for which a
dispatcher attempt was fired (in order), and the
`notifications_sent` counter. -/
structure ScanState where
  table : List Row
  attempts : List Nat
  counted : Nat
deriving DecidableEq

/-- The `UPDATE powers_of_attorney SET notification_sent = TRUE WHERE
id = %s` write. -/
def markNotified (table : List Row) (i : Nat) : List Row :=
  table.map (fun r =>
    if r.id == i then { r with notification_sent := true } else r)

/-- Body of the `for power in powers` loop: fire the dispatcher when the
threshold matches; on success run the mark-notified update, whose own
failure (`markOk` false) is caught and only logged. -/
def scanStep (today : Date) (sendOk markOk : Nat → Bool)
    (st : ScanState) (r : Row) : ScanState :=
  if shouldNotify today r then
    let st1 : ScanState := { st with attempts := st.attempts ++ [r.id] }
    if sendOk r.id then
      if markOk r.id then
        { st1 with table := markNotified st1.table r.id,
                   counted := st1.counted + 1 }
      else st1
    else st1
  else st

/-- The loop of `check_expiring_powers` over the fetched snapshot. -/
def runScan (table : List Row) (today : Date)
    (sendOk markOk : Nat → Bool) : ScanState :=
  (activeRows table today).foldl (scanStep today sendOk markOk)
    ⟨table, [], 0⟩

/-- `check_expiring_powers`: the outer `try`/`except` catches every
exception, in particular a failed fetch (`dbOk = false`) leaves the
table untouched with no record evaluated. -/
def checkExpiringPowers (dbOk : Bool) (table : List Row) (today : Date)
    (sendOk markOk : Nat → Bool) : ScanState :=
  if dbOk then runScan table today sendOk markOk else ⟨table, [], 0⟩

/-- `GET /api/check-expiring`: runs the scan, then unconditionally
returns the success payload. -/
def manualCheckExpiring (dbOk : Bool) (table : List Row) (today : Date)
    (sendOk markOk : Nat → Bool) : Nat × String × ScanState :=
  (200, "success", checkExpiringPowers dbOk table today sendOk markOk)

/-! ### HTTP handlers over the store -/

/-- A record as serialized by `GET /api/powers/`: ISO date strings and
the query-time `days_remaining` column. -/
structure ApiRow where
  id : Nat
  full_name : String
  poa_type : String
  start_date : String
  end_date : String
  telegram_chat_id : String
  notification_sent : Bool
  days_remaining : Int
deriving DecidableEq

/-- Serialization of one row, including `(end_date - CURRENT_DATE) as
days_remaining` computed by the database at query time. -/
def toApiRow (today : Date) (r : Row) : ApiRow :=
  { id := r.id, full_name := r.full_name, poa_type := r.poa_type,
    start_date := toIso r.start_date, end_date := toIso r.end_date,
    telegram_chat_id := r.telegram_chat_id,
    notification_sent := r.notification_sent,
    days_remaining := (toDaysNat r.end_date : Int) - (toDaysNat today : Int) }

inductive GetPowersBody
  | rows (items : List ApiRow)
  | errorBody (message : String)
deriving DecidableEq

/-- The record sequence serialized by a successful `GET /api/powers/`:
the `ORDER BY end_date ASC` result converted row by row. -/
def listedRows (table : List Row) (today : Date) : List ApiRow :=
  (sortByEnd table).map (toApiRow today)

/-- `GET /api/powers/`.  On a storage failure the handler returns the
diagnostic dictionary as its normal return value, which FastAPI
serializes with the default status 200 — it does not raise an
`HTTPException`. -/
def getPowers (db : Except String (List Row)) (today : Date) :
    Nat × GetPowersBody :=
  match db with
  | .ok table => (200, .rows (listedRows table today))
  | .error e => (200, .errorBody e)

inductive CreateResult
  | badRequest (detail : String)
  | serverError (detail : String)
  | created (id : Nat) (full_name : String) (end_date : String)
deriving DecidableEq

/-- HTTP status of a `create_power` outcome (`HTTPException 400`,
`HTTPException 500`, or the echoed success payload). -/
def createStatus : CreateResult → Nat
  | .badRequest _ => 400
  | .serverError _ => 500
  | .created _ _ _ => 200

/-- `POST /api/powers/`: validate the date string first, then insert
with `start_date = date.today()` and the defaulted
`telegram_chat_id` / `notification_sent` columns.  The success payload
echoes the raw input `end_date` string. -/
def createPower (table : List Row) (nextId : Nat) (dbOk : Bool)
    (full_name poa_type end_date : String) (today : Date) :
    CreateResult × List Row :=
  match parseDate end_date with
  | none => (.badRequest "bad date format, use YYYY-MM-DD", table)
  | some d =>
    if dbOk then
      (.created nextId full_name end_date,
        table ++ [{ id := nextId, full_name := full_name,
                    poa_type := poa_type, start_date := today,
                    end_date := d, telegram_chat_id := "-5140897831",
                    notification_sent := false }])
    else (.serverError "database error", table)

inductive DeleteResult
  | deleted (id : Nat)
  | notFound
  | serverError (detail : String)
deriving DecidableEq

def deleteStatus : DeleteResult → Nat
  | .deleted _ => 200
  | .notFound => 404
  | .serverError _ => 500

/-- `DELETE /api/powers/{power_id}`: 404 when no row was removed, 500 on
a storage failure. -/
def deletePower (table : List Row) (dbOk : Bool) (powerId : Nat) :
    DeleteResult × List Row :=
  if dbOk then
    let remaining := table.filter (fun r => r.id != powerId)
    if remaining.length < table.length then (.deleted powerId, remaining)
    else (.notFound, table)
  else (.serverError "database error", table)

/-! ### Structure of one scan tick -/

/-- Flag write of `markNotified`. -/
def setSent (r : Row) : Row := { r with notification_sent := true }

/-- Applying the whole tick's successful mark-notified writes at once. -/
def setFlags (ids : List Nat) (table : List Row) : List Row :=
  table.map (fun r => if ids.contains r.id then setSent r else r)

/-- Ids of the fetched rows for which the threshold matched, the
dispatcher succeeded, and the mark-notified update committed. -/
def successIds (today : Date) (sendOk markOk : Nat → Bool)
    (l : List Row) : List Nat :=
  (l.filter (fun r => shouldNotify today r && sendOk r.id && markOk r.id)).map
    Row.id

theorem scanStep_attempts (today : Date) (sendOk markOk : Nat → Bool)
    (st : ScanState) (r : Row) :
    (scanStep today sendOk markOk st r).attempts =
      st.attempts ++ (if shouldNotify today r then [r.id] else []) := by
  unfold scanStep
  by_cases h : shouldNotify today r <;>
    simp [h, apply_ite ScanState.attempts]

theorem scanStep_table (today : Date) (sendOk markOk : Nat → Bool)
    (st : ScanState) (r : Row) :
    (scanStep today sendOk markOk st r).table =
      if shouldNotify today r && sendOk r.id && markOk r.id then
        markNotified st.table r.id
      else st.table := by
  unfold scanStep
  by_cases h1 : shouldNotify today r <;>
    by_cases h2 : sendOk r.id <;>
      by_cases h3 : markOk r.id <;>
        simp [h1, h2, h3]

theorem foldl_scanStep_attempts (today : Date) (sendOk markOk : Nat → Bool) :
    ∀ (l : List Row) (st : ScanState),
      (l.foldl (scanStep today sendOk markOk) st).attempts =
        st.attempts ++ (l.filter (shouldNotify today)).map Row.id := by
  intro l
  induction l with
  | nil => intro st; simp
  | cons r t ih =>
    intro st
    simp only [List.foldl_cons]
    rw [ih, scanStep_attempts]
    by_cases h : shouldNotify today r <;>
      simp [h, List.filter_cons]

/-- Setting the flag twice is the same as setting it once. -/
theorem setSent_setSent (r : Row) : setSent (setSent r) = setSent r := rfl

theorem setSent_id (r : Row) : (setSent r).id = r.id := rfl

/-- A mark-notified write followed by later flag writes equals one batch
of flag writes. -/
theorem setFlags_markNotified (S : List Nat) (i : Nat) (t : List Row) :
    setFlags S (markNotified t i) = setFlags (i :: S) t := by
  unfold setFlags markNotified
  rw [List.map_map]
  apply List.map_congr_left
  intro x _
  simp only [Function.comp_apply]
  by_cases h1 : (x.id == i) = true
  · rw [if_pos h1]
    have hxi : x.id = i := by simpa using h1
    have hc : ((i :: S).contains x.id) = true := by
      simp [List.contains_cons, hxi]
    rw [if_pos hc]
    split <;> rfl
  · rw [if_neg h1]
    have h1f : (x.id == i) = false := by
      revert h1; cases (x.id == i) <;> simp
    simp only [List.contains_cons, h1f, Bool.false_or]

theorem foldl_scanStep_table (today : Date) (sendOk markOk : Nat → Bool) :
    ∀ (l : List Row) (st : ScanState),
      (l.foldl (scanStep today sendOk markOk) st).table =
        setFlags (successIds today sendOk markOk l) st.table := by
  intro l
  induction l with
  | nil =>
    intro st
    simp [successIds, setFlags]
  | cons r t ih =>
    intro st
    simp only [List.foldl_cons]
    rw [ih, scanStep_table]
    unfold successIds
    by_cases h : shouldNotify today r && sendOk r.id && markOk r.id
    · rw [if_pos h]
      simp only [List.filter_cons, h, if_true, List.map_cons]
      rw [setFlags_markNotified]
    · rw [if_neg h]
      simp only [List.filter_cons, h, if_false]
      rfl

/-- The dispatcher attempts of one tick are exactly the fetched rows
matching the threshold policy, in fetched order. -/
theorem runScan_attempts (table : List Row) (today : Date)
    (sendOk markOk : Nat → Bool) :
    (runScan table today sendOk markOk).attempts =
      ((activeRows table today).filter (shouldNotify today)).map Row.id := by
  unfold runScan
  rw [foldl_scanStep_attempts]
  rfl

/-- The table after one tick carries exactly the successful
mark-notified writes. -/
theorem runScan_table (table : List Row) (today : Date)
    (sendOk markOk : Nat → Bool) :
    (runScan table today sendOk markOk).table =
      setFlags (successIds today sendOk markOk (activeRows table today))
        table := by
  unfold runScan
  rw [foldl_scanStep_table]

/-- The scan query result is a permutation of the active rows of the
table. -/
theorem activeRows_perm (table : List Row) (today : Date) :
    (activeRows table today).Perm
      (table.filter (fun r => dateLe today r.end_date)) :=
  List.perm_insertionSort endLe _

/-- In a table with distinct ids, counting by one member's id reduces to
that member. -/
theorem countP_id_unique (Q : Row → Bool) (r : Row) :
    ∀ (table : List Row), r ∈ table → (table.map Row.id).Nodup →
      table.countP (fun x => x.id == r.id && Q x) = if Q r then 1 else 0 := by
  intro table
  induction table with
  | nil => intro hr _; cases hr
  | cons y ys ih =>
    intro hr hnd
    rw [List.countP_cons]
    rw [List.map_cons, List.nodup_cons] at hnd
    obtain ⟨hy, hnd2⟩ := hnd
    rcases List.mem_cons.mp hr with rfl | hmem
    · have hzero : ys.countP (fun x => x.id == r.id && Q x) = 0 := by
        rw [List.countP_eq_zero]
        intro a ha hcon
        simp only [Bool.and_eq_true, beq_iff_eq] at hcon
        have hmm := List.mem_map_of_mem Row.id ha
        rw [hcon.1] at hmm
        exact hy hmm
      rw [hzero]
      by_cases hq : Q r = true <;> simp [hq]
    · have hin : r.id ∈ ys.map Row.id := List.mem_map_of_mem Row.id hmem
      have hyid : (y.id == r.id) = false := by
        cases hcc : (y.id == r.id) with
        | false => rfl
        | true =>
          have hEq : y.id = r.id := by simpa using hcc
          rw [← hEq] at hin
          exact absurd hin hy
      rw [ih hmem hnd2]
      simp [hyid]

/-- Per-record dispatcher-attempt count in one tick: one if the active
record matches the threshold policy, zero otherwise. -/
theorem runScan_count_attempts (table : List Row) (today : Date)
    (sendOk markOk : Nat → Bool) (r : Row) (hmem : r ∈ table)
    (hnd : (table.map Row.id).Nodup)
    (hact : dateLe today r.end_date = true) :
    (runScan table today sendOk markOk).attempts.count r.id
      = if shouldNotify today r then 1 else 0 := by
  rw [runScan_attempts, List.count_eq_countP, List.countP_map,
    List.countP_filter, (activeRows_perm table today).countP_eq,
    List.countP_filter]
  have hpq : (fun x => ((fun i => i == r.id) ∘ Row.id) x
        && shouldNotify today x && dateLe today x.end_date)
      = fun x => x.id == r.id
        && (shouldNotify today x && dateLe today x.end_date) := by
    funext x
    simp [Function.comp, Bool.and_assoc]
  rw [hpq, countP_id_unique
    (fun x => shouldNotify today x && dateLe today x.end_date) r table
    hmem hnd]
  by_cases hs : shouldNotify today r = true <;> simp [hs, hact]

/-- Claim C1: on one scan tick, a record fetched as active (its
`end_date` at or after today) gets a dispatcher attempt exactly when
`days_left = end_date - today` is a member of `NOTIFICATION_DAYS =
[7, 3, 1]`; a record seven days from expiry gets exactly one attempt,
one six days out gets none, and a record whose `end_date` is in the
past is never fetched at all. -/
theorem c1_threshold_policy (table : List Row) (today : Date)
    (sendOk markOk : Nat → Bool) (hnd : (table.map Row.id).Nodup)
    (r : Row) (hmem : r ∈ table) :
    (dateLe today r.end_date = true →
      (runScan table today sendOk markOk).attempts.count r.id
        = if daysLeft today r ∈ NOTIFICATION_DAYS then 1 else 0)
    ∧ (daysLeft today r = 7 →
      (runScan table today sendOk markOk).attempts.count r.id = 1)
    ∧ (daysLeft today r = 6 →
      (runScan table today sendOk markOk).attempts.count r.id = 0)
    ∧ (validDate r.end_date = true → validDate today = true →
      dateLtCal r.end_date today →
      r.id ∉ ((activeRows table today).map Row.id)) := by
  refine ⟨?_, ?_, ?_, ?_⟩
  · intro hact
    rw [runScan_count_attempts table today sendOk markOk r hmem hnd hact]
    unfold shouldNotify
    by_cases h : daysLeft today r ∈ NOTIFICATION_DAYS <;> simp [h]
  · intro h7
    have hact : dateLe today r.end_date = true := by
      unfold dateLe
      unfold daysLeft at h7
      rw [decide_eq_true_eq]
      omega
    rw [runScan_count_attempts table today sendOk markOk r hmem hnd hact]
    simp [shouldNotify, NOTIFICATION_DAYS, h7]
  · intro h6
    have hact : dateLe today r.end_date = true := by
      unfold dateLe
      unfold daysLeft at h6
      rw [decide_eq_true_eq]
      omega
    rw [runScan_count_attempts table today sendOk markOk r hmem hnd hact]
    simp [shouldNotify, NOTIFICATION_DAYS, h6]
  · intro hvr hvt hlt hin
    obtain ⟨x, hx, hxid⟩ := List.mem_map.mp hin
    have hxf : x ∈ table.filter (fun a => dateLe today a.end_date) :=
      (activeRows_perm table today).mem_iff.mp hx
    have hxt : x ∈ table := (List.mem_filter.mp hxf).1
    have hxd : dateLe today x.end_date = true := (List.mem_filter.mp hxf).2
    have hxr : x = r := List.inj_on_of_nodup_map hnd hxt hmem hxid
    rw [hxr] at hxd
    exact (dateLe_iff_not_lt hvt hvr).mp hxd hlt

/-- Sample store used by the claim witnesses: a record seven days from
expiry, one six days from expiry, and an already expired one. -/
def wToday : Date := ⟨2025, 1, 1⟩

def wRow7 : Row :=
  ⟨1, "a", "t", ⟨2025, 1, 1⟩, ⟨2025, 1, 8⟩, "c", false⟩

def wRow6 : Row :=
  ⟨2, "b", "t", ⟨2025, 1, 1⟩, ⟨2025, 1, 7⟩, "c", false⟩

def wRowPast : Row :=
  ⟨3, "p", "t", ⟨2024, 12, 1⟩, ⟨2024, 12, 31⟩, "c", false⟩

def wTable : List Row := [wRow7, wRow6, wRowPast]

/-- Witness for C1 at a concrete store and date. -/
theorem c1_threshold_policy_witness :
    (runScan wTable wToday (fun _ => true) (fun _ => true)).attempts.count 1
        = 1
    ∧ (runScan wTable wToday (fun _ => true) (fun _ => true)).attempts.count 2
        = 0
    ∧ 3 ∉ ((activeRows wTable wToday).map Row.id) := by
  refine ⟨?_, ?_, ?_⟩
  · exact (c1_threshold_policy wTable wToday (fun _ => true) (fun _ => true)
      (by decide) wRow7 (by decide)).2.1 (by decide)
  · exact (c1_threshold_policy wTable wToday (fun _ => true) (fun _ => true)
      (by decide) wRow6 (by decide)).2.2.1 (by decide)
  · exact (c1_threshold_policy wTable wToday (fun _ => true) (fun _ => true)
      (by decide) wRowPast (by decide)).2.2.2 (by decide) (by decide)
      (by decide)

/-- A record that is fetched, matches the threshold, and whose send and
mark both succeed is among the tick's successful mark-notified ids. -/
theorem successIds_contains (today : Date) (sendOk markOk : Nat → Bool)
    (l : List Row) (r : Row) (hr : r ∈ l)
    (h1 : shouldNotify today r = true) (h2 : sendOk r.id = true)
    (h3 : markOk r.id = true) :
    (successIds today sendOk markOk l).contains r.id = true := by
  unfold successIds
  have hf : r ∈ l.filter
      (fun a => shouldNotify today a && sendOk a.id && markOk a.id) :=
    List.mem_filter.mpr ⟨hr, by simp [h1, h2, h3]⟩
  exact List.elem_iff.mpr (List.mem_map_of_mem Row.id hf)

/-- A record whose dispatcher send fails is never among the tick's
mark-notified ids. -/
theorem successIds_not_contains (today : Date) (sendOk markOk : Nat → Bool)
    (l : List Row) (i : Nat) (h : sendOk i = false) :
    (successIds today sendOk markOk l).contains i = false := by
  cases hc : (successIds today sendOk markOk l).contains i with
  | false => rfl
  | true =>
    exfalso
    have hmemb := List.elem_iff.mp hc
    unfold successIds at hmemb
    obtain ⟨z, hz, hzi⟩ := List.mem_map.mp hmemb
    have hzp := (List.mem_filter.mp hz).2
    simp only [Bool.and_eq_true] at hzp
    rw [hzi] at hzp
    rw [hzp.1.2] at h
    cases h

/-- The flagged-row count for one id after a tick: one when the id was
successfully marked, otherwise the record's previous flag. -/
theorem runScan_flag_count (table : List Row) (today : Date)
    (sendOk markOk : Nat → Bool) (r : Row) (hmem : r ∈ table)
    (hnd : (table.map Row.id).Nodup) :
    (runScan table today sendOk markOk).table.countP
        (fun x => x.id == r.id && x.notification_sent)
      = if (successIds today sendOk markOk
            (activeRows table today)).contains r.id then 1
        else (if r.notification_sent then 1 else 0) := by
  rw [runScan_table]
  unfold setFlags
  rw [List.countP_map]
  have hpq : ((fun x => x.id == r.id && x.notification_sent) ∘
        (fun a => if (successIds today sendOk markOk
            (activeRows table today)).contains a.id then setSent a else a))
      = fun x => x.id == r.id &&
          (if (successIds today sendOk markOk
              (activeRows table today)).contains x.id then true
           else x.notification_sent) := by
    funext x
    by_cases hc : x.id ∈ successIds today sendOk markOk
        (activeRows table today) <;>
      simp [Function.comp, hc, setSent]
  rw [hpq, countP_id_unique _ r table hmem hnd]
  by_cases hc : r.id ∈ successIds today sendOk markOk
      (activeRows table today) <;> simp [hc]

/-- Claim C2: within one tick, an eligible record whose send succeeds
ends with `notification_sent = true` (given the mark-notified update
itself commits); an eligible record whose send fails keeps its previous
flag; and every eligible record gets exactly one attempt regardless of
the other records' outcomes, so one failure neither retries nor aborts
the batch. -/
theorem c2_batch_resilience (table : List Row) (today : Date)
    (sendOk markOk : Nat → Bool) (hnd : (table.map Row.id).Nodup)
    (hmark : ∀ i, markOk i = true) (r : Row) (hmem : r ∈ table)
    (hact : dateLe today r.end_date = true)
    (helig : shouldNotify today r = true) :
    (sendOk r.id = true →
      (runScan table today sendOk markOk).table.countP
        (fun x => x.id == r.id && x.notification_sent) = 1)
    ∧ (sendOk r.id = false →
      (runScan table today sendOk markOk).table.countP
          (fun x => x.id == r.id && x.notification_sent)
        = if r.notification_sent then 1 else 0)
    ∧ (runScan table today sendOk markOk).attempts.count r.id = 1 := by
  refine ⟨?_, ?_, ?_⟩
  · intro hsend
    have hr : r ∈ activeRows table today :=
      (activeRows_perm table today).mem_iff.mpr
        (List.mem_filter.mpr ⟨hmem, hact⟩)
    rw [runScan_flag_count table today sendOk markOk r hmem hnd,
      successIds_contains today sendOk markOk _ r hr helig hsend
        (hmark r.id)]
    rfl
  · intro hsend
    rw [runScan_flag_count table today sendOk markOk r hmem hnd,
      successIds_not_contains today sendOk markOk _ r.id hsend]
    rfl
  · rw [runScan_count_attempts table today sendOk markOk r hmem hnd hact,
      helig]
    rfl

/-- Store for the C2 witness: two records both seven days from expiry;
the dispatcher fails for id 1 and succeeds for id 2. -/
def wSendB : Nat → Bool := fun i => i == 2

def wTableAB : List Row :=
  [⟨1, "a", "t", ⟨2025, 1, 1⟩, ⟨2025, 1, 8⟩, "c", false⟩,
   ⟨2, "b", "t", ⟨2025, 1, 1⟩, ⟨2025, 1, 8⟩, "c", false⟩]

/-- Witness for C2: in the same tick, the failed record keeps its flag,
the succeeded one is marked, and both got exactly one attempt. -/
theorem c2_batch_resilience_witness :
    (runScan wTableAB wToday wSendB (fun _ => true)).table.countP
        (fun x => x.id == 1 && x.notification_sent) = 0
    ∧ (runScan wTableAB wToday wSendB (fun _ => true)).table.countP
        (fun x => x.id == 2 && x.notification_sent) = 1
    ∧ (runScan wTableAB wToday wSendB (fun _ => true)).attempts.count 1 = 1
    ∧ (runScan wTableAB wToday wSendB (fun _ => true)).attempts.count 2 = 1 := by
  refine ⟨?_, ?_, ?_, ?_⟩
  · exact (c2_batch_resilience wTableAB wToday wSendB (fun _ => true)
      (by decide) (fun _ => rfl)
      ⟨1, "a", "t", ⟨2025, 1, 1⟩, ⟨2025, 1, 8⟩, "c", false⟩ (by decide)
      (by decide) (by decide)).2.1 (by decide)
  · exact (c2_batch_resilience wTableAB wToday wSendB (fun _ => true)
      (by decide) (fun _ => rfl)
      ⟨2, "b", "t", ⟨2025, 1, 1⟩, ⟨2025, 1, 8⟩, "c", false⟩ (by decide)
      (by decide) (by decide)).1 (by decide)
  · exact (c2_batch_resilience wTableAB wToday wSendB (fun _ => true)
      (by decide) (fun _ => rfl)
      ⟨1, "a", "t", ⟨2025, 1, 1⟩, ⟨2025, 1, 8⟩, "c", false⟩ (by decide)
      (by decide) (by decide)).2.2
  · exact (c2_batch_resilience wTableAB wToday wSendB (fun _ => true)
      (by decide) (fun _ => rfl)
      ⟨2, "b", "t", ⟨2025, 1, 1⟩, ⟨2025, 1, 8⟩, "c", false⟩ (by decide)
      (by decide) (by decide)).2.2

/-- An arbitrary reassignment of the `notification_sent` flags: two
stores differ only in those flags exactly when one is the image of the
other under some `reflag g`. -/
def reflag (g : Row → Bool) (r : Row) : Row :=
  { r with notification_sent := g r }

theorem endLe_reflag (g : Row → Bool) (a b : Row) :
    endLe (reflag g a) (reflag g b) = endLe a b := rfl

theorem endDate_reflag (g : Row → Bool) (r : Row) :
    (reflag g r).end_date = r.end_date := rfl

theorem id_reflag (g : Row → Bool) (r : Row) :
    (reflag g r).id = r.id := rfl

theorem shouldNotify_reflag (today : Date) (g : Row → Bool) (r : Row) :
    shouldNotify today (reflag g r) = shouldNotify today r := rfl

theorem orderedInsert_reflag (g : Row → Bool) (a : Row) :
    ∀ l : List Row,
      List.orderedInsert endLe (reflag g a) (l.map (reflag g))
        = (List.orderedInsert endLe a l).map (reflag g) := by
  intro l
  induction l with
  | nil => rfl
  | cons b t ih =>
    simp only [List.map_cons, List.orderedInsert, endLe_reflag]
    by_cases h : endLe a b
    · rw [if_pos h, if_pos h]
      simp
    · rw [if_neg h, if_neg h, ih]
      simp

theorem insertionSort_reflag (g : Row → Bool) :
    ∀ l : List Row,
      List.insertionSort endLe (l.map (reflag g))
        = (List.insertionSort endLe l).map (reflag g) := by
  intro l
  induction l with
  | nil => rfl
  | cons a t ih =>
    simp only [List.map_cons, List.insertionSort]
    rw [ih, orderedInsert_reflag]

/-- The scan query commutes with flag reassignment: the fetched
snapshot depends on the flags only through carrying them along. -/
theorem activeRows_reflag (g : Row → Bool) (table : List Row)
    (today : Date) :
    activeRows (table.map (reflag g)) today
      = (activeRows table today).map (reflag g) := by
  unfold activeRows sortByEnd
  have h1 : ∀ t : List Row,
      List.filter (fun r => dateLe today r.end_date) (t.map (reflag g))
        = (t.filter (fun r => dateLe today r.end_date)).map (reflag g) := by
    intro t
    induction t with
    | nil => rfl
    | cons a t ih =>
      simp only [List.map_cons, List.filter_cons, endDate_reflag]
      by_cases h : dateLe today a.end_date = true <;> simp [h, ih]
  rw [h1, insertionSort_reflag]

/-- Claim C3: the per-record send decision of a scan tick never consults
`notification_sent` — rewriting all flags arbitrarily leaves the
sequence of dispatcher attempts identical. -/
theorem c3_flag_not_consulted (table : List Row) (g : Row → Bool)
    (today : Date) (sendOk markOk : Nat → Bool) :
    (runScan (table.map (reflag g)) today sendOk markOk).attempts
      = (runScan table today sendOk markOk).attempts := by
  rw [runScan_attempts, runScan_attempts, activeRows_reflag]
  have h2 : ∀ l : List Row,
      ((l.map (reflag g)).filter (shouldNotify today)).map Row.id
        = (l.filter (shouldNotify today)).map Row.id := by
    intro l
    induction l with
    | nil => rfl
    | cons a t ih =>
      simp only [List.map_cons, List.filter_cons, shouldNotify_reflag]
      by_cases h : shouldNotify today a = true <;>
        simp [h, ih, id_reflag]
  exact h2 (activeRows table today)

/-- Claim C4 as stated is false at this input: with the database
unreachable, `GET /api/powers/` responds with status 200 (the handler
returns the diagnostic dictionary instead of raising), not with a
server-error status. -/
theorem c4_counterexample :
    (getPowers (Except.error "connection refused") wToday).1 = 200
    ∧ ¬ 500 ≤ (getPowers (Except.error "connection refused") wToday).1 := by
  exact ⟨rfl, by decide⟩

/-- Claim C4 (amended): create and delete surface storage failures as
500 server errors without mutating the store, while the list operation
returns its error-flagged diagnostic body with the success status
200. -/
theorem c4_storage_errors (e : String) (today : Date) (table : List Row)
    (nextId : Nat) (full_name poa_type end_date : String) (powerId : Nat) :
    (∀ d, parseDate end_date = some d →
      createStatus (createPower table nextId false full_name poa_type
          end_date today).1 = 500
        ∧ (createPower table nextId false full_name poa_type
            end_date today).2 = table)
    ∧ deleteStatus (deletePower table false powerId).1 = 500
    ∧ (deletePower table false powerId).2 = table
    ∧ getPowers (Except.error e) today = (200, GetPowersBody.errorBody e) := by
  refine ⟨?_, rfl, rfl, rfl⟩
  intro d hd
  unfold createPower
  rw [hd]
  exact ⟨rfl, rfl⟩

/-- Witness for the amended C4 at concrete inputs. -/
theorem c4_storage_errors_witness :
    createStatus (createPower [] 1 false "n" "t" "2025-06-15" wToday).1 = 500
    ∧ (createPower [] 1 false "n" "t" "2025-06-15" wToday).2 = []
    ∧ deleteStatus (deletePower [] false 5).1 = 500
    ∧ getPowers (Except.error "down") wToday
        = (200, GetPowersBody.errorBody "down") := by
  have h := c4_storage_errors "down" wToday [] 1 "n" "t" "2025-06-15" 5
  exact ⟨(h.1 ⟨2025, 6, 15⟩ (by rfl)).1, (h.1 ⟨2025, 6, 15⟩ (by rfl)).2,
    h.2.1, h.2.2.2⟩

/-- Claim C5: every record returned by the list operation carries
`days_remaining` equal to the exact whole-day difference between its
`end_date` and the query-time date: zero when `end_date` is today, and
at most zero (the exact negative difference) when `end_date` is in the
past. -/
theorem c5_days_remaining (table : List Row) (today : Date) (r : Row)
    (hmem : r ∈ table) (hnd : (table.map Row.id).Nodup) :
    (∀ a ∈ listedRows table today, a.id = r.id →
      a.days_remaining
          = (toDaysNat r.end_date : Int) - (toDaysNat today : Int)
        ∧ (r.end_date = today → a.days_remaining = 0)
        ∧ (validDate r.end_date = true → validDate today = true →
            dateLtCal r.end_date today → a.days_remaining ≤ 0))
    ∧ (toApiRow today r ∈ listedRows table today) := by
  constructor
  · intro a ha haid
    obtain ⟨x, hx, rfl⟩ := List.mem_map.mp ha
    have hxt : x ∈ table :=
      (List.perm_insertionSort endLe table).mem_iff.mp hx
    have hxr : x = r := List.inj_on_of_nodup_map hnd hxt hmem haid
    subst hxr
    refine ⟨rfl, ?_, ?_⟩
    · intro heq
      show (toDaysNat x.end_date : Int) - (toDaysNat today : Int) = 0
      rw [heq]
      omega
    · intro hvr hvt hlt
      have hmono := toDaysNat_strictMono hvr hvt hlt
      show (toDaysNat x.end_date : Int) - (toDaysNat today : Int) ≤ 0
      omega
  · exact List.mem_map_of_mem (toApiRow today)
      ((List.perm_insertionSort endLe table).mem_iff.mpr hmem)

/-- Witness for C5: the expired sample record is listed with the exact
negative day difference. -/
theorem c5_days_remaining_witness :
    (toApiRow wToday wRowPast).days_remaining
        = (toDaysNat wRowPast.end_date : Int) - (toDaysNat wToday : Int)
    ∧ (toApiRow wToday wRowPast).days_remaining ≤ 0 := by
  have h := (c5_days_remaining wTable wToday wRowPast (by decide)
    (by decide)).1 (toApiRow wToday wRowPast) (by decide) rfl
  exact ⟨h.1, h.2.2 (by decide) (by decide) (by decide)⟩

/-- Position of an id inside a sequence of rows. -/
def posOf (l : List Row) (i : Nat) : Nat := l.findIdx (fun r => r.id == i)

/-- Ties broken by insertion order: rows sharing an `end_date` appear in
the result in the order they have in the table. -/
def tiesInInsertionOrder (table result : List Row) : Prop :=
  ∀ a ∈ result, ∀ b ∈ result, a.end_date = b.end_date →
    posOf table a.id ≤ posOf table b.id →
    posOf result a.id ≤ posOf result b.id

/-- Claim C6 as stated: every sequence satisfying the list query's
`ORDER BY end_date ASC` contract is sorted ascending by `end_date` and
keeps ties in insertion order. -/
def listSortedStableClaim : Prop :=
  ∀ table result, orderByEndSpec table result →
    result.Sorted endLe ∧ tiesInInsertionOrder table result

def wTieRow1 : Row := ⟨1, "a", "t", ⟨2025, 1, 1⟩, ⟨2025, 5, 1⟩, "c", false⟩

def wTieRow2 : Row := ⟨2, "b", "t", ⟨2025, 1, 1⟩, ⟨2025, 5, 1⟩, "c", false⟩

/-- Counterexample to C6: with two records sharing an `end_date`, the
reversed order also satisfies everything `ORDER BY end_date ASC`
promises — the query has no secondary sort key, so insertion order for
ties is not guaranteed. -/
theorem c6_counterexample : ¬ listSortedStableClaim := by
  intro h
  have hspec : orderByEndSpec [wTieRow1, wTieRow2] [wTieRow2, wTieRow1] := by
    constructor
    · exact List.Perm.swap wTieRow2 wTieRow1 []
    · decide
  have hv := (h [wTieRow1, wTieRow2] [wTieRow2, wTieRow1] hspec).2
    wTieRow1 (by decide) wTieRow2 (by decide) (by decide) (by decide)
  exact absurd hv (by decide)

/-- Claim C6 (amended): the list operation's result is a permutation of
the table sorted ascending by `end_date`; the relative order of records
sharing an `end_date` is not constrained by the query. -/
theorem c6_sorted (table : List Row) (today : Date) :
    orderByEndSpec table (sortByEnd table)
    ∧ listedRows table today = (sortByEnd table).map (toApiRow today) := by
  exact ⟨⟨(List.perm_insertionSort endLe table).symm,
    List.sorted_insertionSort endLe table⟩, rfl⟩

/-- Claim C7: `POST /api/powers/` rejects an `end_date` string that the
`YYYY-MM-DD` parser does not accept with a 400 client error, leaving the
store unchanged; an accepted date string never produces the
malformed-date error. -/
theorem c7_create_validates_date (table : List Row) (nextId : Nat)
    (dbOk : Bool) (full_name poa_type end_date : String) (today : Date) :
    (parseDate end_date = none →
      createPower table nextId dbOk full_name poa_type end_date today
        = (CreateResult.badRequest "bad date format, use YYYY-MM-DD",
            table))
    ∧ (∀ d, parseDate end_date = some d →
      createStatus (createPower table nextId dbOk full_name poa_type
        end_date today).1 ≠ 400) := by
  constructor
  · intro h
    unfold createPower
    rw [h]
  · intro d h
    unfold createPower
    rw [h]
    cases dbOk <;> simp [createStatus]

/-- Witness for C7: February 30th is rejected with the store untouched;
the leap-day 2024-02-29 is accepted. -/
theorem c7_create_validates_date_witness :
    createPower [] 1 true "n" "t" "2025-02-30" wToday
      = (CreateResult.badRequest "bad date format, use YYYY-MM-DD", [])
    ∧ createStatus (createPower [] 1 true "n" "t" "2024-02-29" wToday).1
        ≠ 400 :=
  ⟨(c7_create_validates_date [] 1 true "n" "t" "2025-02-30" wToday).1
      (by rfl),
   (c7_create_validates_date [] 1 true "n" "t" "2024-02-29" wToday).2
      ⟨2024, 2, 29⟩ (by rfl)⟩

/-- Claim C8: the dispatcher returns `false` — it never raises — on any
missing token, network error, or non-200 response; it returns `true`
exactly on a 200 response with the token configured; and it issues at
most one outbound request per call. -/
theorem c8_dispatcher_no_raise (tokenConfigured : Bool)
    (httpResult : Except String Nat) :
    (sendTelegramNotification tokenConfigured httpResult).2 ≤ 1
    ∧ ((sendTelegramNotification tokenConfigured httpResult).1 = true
      ↔ (tokenConfigured = true ∧ httpResult = Except.ok 200)) := by
  unfold sendTelegramNotification
  cases tokenConfigured <;> cases httpResult <;>
    simp [Except.ok.injEq]

/-- Witness for C8 at a concrete network failure. -/
theorem c8_dispatcher_no_raise_witness :
    (sendTelegramNotification true (Except.error "timeout")).2 ≤ 1
    ∧ ((sendTelegramNotification true (Except.error "timeout")).1 = true
      ↔ (true = true ∧ (Except.error "timeout" : Except String Nat)
          = Except.ok 200)) :=
  c8_dispatcher_no_raise true (Except.error "timeout")

/-- Claim C9: creating a record from a well-formed ISO `YYYY-MM-DD`
string echoes that exact string in the create response, and reading the
store back lists exactly one record with the new id, whose `end_date`
serializes to the same string. -/
theorem c9_roundtrip (d : Date) (hd : validDate d = true)
    (table : List Row) (nextId : Nat) (full_name poa_type : String)
    (today : Date) (hfresh : ∀ x ∈ table, x.id ≠ nextId) :
    (createPower table nextId true full_name poa_type (toIso d) today).1
      = CreateResult.created nextId full_name (toIso d)
    ∧ (∀ a ∈ listedRows
        (createPower table nextId true full_name poa_type
          (toIso d) today).2 today,
        a.id = nextId → a.end_date = toIso d)
    ∧ (listedRows
        (createPower table nextId true full_name poa_type
          (toIso d) today).2 today).countP
          (fun a => a.id == nextId && (a.end_date == toIso d)) = 1 := by
  have hparse := parseDate_toIso d hd
  have hstore : (createPower table nextId true full_name poa_type
      (toIso d) today).2
      = table ++ [(⟨nextId, full_name, poa_type, today, d,
          "-5140897831", false⟩ : Row)] := by
    unfold createPower
    rw [hparse]
    rfl
  have hres : (createPower table nextId true full_name poa_type
      (toIso d) today).1
      = CreateResult.created nextId full_name (toIso d) := by
    unfold createPower
    rw [hparse]
    rfl
  refine ⟨hres, ?_, ?_⟩
  · intro a ha haid
    rw [hstore] at ha
    obtain ⟨x, hx, rfl⟩ := List.mem_map.mp ha
    have hxs : x ∈ table ++ [(⟨nextId, full_name, poa_type, today, d,
        "-5140897831", false⟩ : Row)] :=
      (List.perm_insertionSort endLe _).mem_iff.mp hx
    rcases List.mem_append.mp hxs with hxt | hxn
    · exact absurd haid (hfresh x hxt)
    · rw [List.mem_singleton.mp hxn]
      rfl
  · rw [hstore]
    unfold listedRows sortByEnd
    rw [List.countP_map,
      (List.perm_insertionSort endLe _).countP_eq, List.countP_append]
    have h0 : table.countP ((fun a =>
        a.id == nextId && (a.end_date == toIso d)) ∘ toApiRow today)
        = 0 := by
      rw [List.countP_eq_zero]
      intro x hx hcon
      simp only [Function.comp_apply, Bool.and_eq_true, beq_iff_eq] at hcon
      exact hfresh x hx hcon.1
    rw [h0]
    simp [toApiRow]

/-- Witness for C9 at the spec's example date. -/
theorem c9_roundtrip_witness :
    (createPower [] 1 true "n" "t" "2025-06-15" wToday).1
      = CreateResult.created 1 "n" "2025-06-15"
    ∧ (listedRows (createPower [] 1 true "n" "t" "2025-06-15" wToday).2
        wToday).countP
        (fun a => a.id == 1 && (a.end_date == "2025-06-15")) = 1 := by
  have h := c9_roundtrip ⟨2025, 6, 15⟩ (by decide) [] 1 "n" "t" wToday
    (by simp)
  exact ⟨h.1, h.2.2⟩

/-- Claim C10: the scan routine is total — a failed fetch is caught,
leaving the store untouched with no record evaluated or attempted — and
the manual trigger endpoint always answers with the success payload and
status 200, database down or not. -/
theorem c10_manual_check_always_succeeds (dbOk : Bool) (table : List Row)
    (today : Date) (sendOk markOk : Nat → Bool) :
    (manualCheckExpiring dbOk table today sendOk markOk).1 = 200
    ∧ (manualCheckExpiring dbOk table today sendOk markOk).2.1
        = "success"
    ∧ (dbOk = false →
      checkExpiringPowers dbOk table today sendOk markOk
        = ⟨table, [], 0⟩) := by
  refine ⟨rfl, rfl, ?_⟩
  intro h
  subst h
  rfl

/-- Witness for C10 with the database unreachable. -/
theorem c10_manual_check_always_succeeds_witness :
    (manualCheckExpiring false wTable wToday (fun _ => true)
      (fun _ => true)).1 = 200
    ∧ checkExpiringPowers false wTable wToday (fun _ => true)
        (fun _ => true) = ⟨wTable, [], 0⟩ :=
  ⟨(c10_manual_check_always_succeeds false wTable wToday (fun _ => true)
      (fun _ => true)).1,
   (c10_manual_check_always_succeeds false wTable wToday (fun _ => true)
      (fun _ => true)).2.2 rfl⟩

end Dover
